import Mathlib

/-!
Verification of the g0s metrics pipeline against its specification.

Each Go function referenced by the specification is embedded as an
executable Lean definition translated from the source:

- machine integers become Nat or Int with explicit wrap at the width
  where Go can overflow (uint64 subtraction, int64 multiplication);
- float64 arithmetic is modelled over the rationals, which is exact for
  the comparisons and clamps the properties concern;
- fallible or panicking code returns Option;
- stateful loops become explicit state-passing step functions over
  event traces.
-/

namespace G0s

/-! ## Image reference parsing

The repository stages two copies of parseImageName.  The copy in
src/unnamed/part_000 (lines 296 to 301) uses strings.LastIndex and
splits at the rightmost colon; the copy in
internal/agent/collector/docker_collector.go (lines 231 to 237) uses
strings.Split and returns the first two fields, splitting at the first
colon.  Both are embedded here.  Strings are modelled as lists of
characters; the colon is ASCII, so character positions and Go byte
positions coincide.
-/

/-- Index of the last occurrence of a character in a list, as
strings.LastIndex does on a one-byte needle. -/
def lastIndexOf (c : Char) : List Char → Option Nat
  | [] => none
  | x :: xs =>
    match lastIndexOf c xs with
    | some i => some (i + 1)
    | none => if x = c then some 0 else none

/-- Embeds parseImageName from src/unnamed/part_000: split at the
rightmost colon when present, otherwise return the whole input with tag
"latest". -/
def parseImageName (image : List Char) : List Char × List Char :=
  match lastIndexOf ':' image with
  | some idx => (image.take idx, image.drop (idx + 1))
  | none => (image, "latest".data)

/-- Embeds parseImageName from
internal/agent/collector/docker_collector.go: strings.Split on the
colon, then the first two fields when there are at least two, otherwise
the sole field with tag "latest".  Go strings.Split never returns an
empty slice for a one-byte separator, and List.splitOn has the same
property, so the getD defaults are never used. -/
def parseImageNameSplit (image : List Char) : List Char × List Char :=
  let parts := image.splitOn ':'
  if parts.length > 1 then (parts.getD 0 [], parts.getD 1 [])
  else (parts.getD 0 [], "latest".data)

/-! ## Container CPU percentage

Embeds calculateCPUPercentage from docker_collector.go.  The Go fields
TotalUsage, SystemUsage (and their PreCPUStats counterparts) are uint64,
so the subtractions wrap modulo two to the sixty-fourth; the wrapped
results are then converted to float64, modelled here as rationals.
-/

/-- Container stats fields used by calculateCPUPercentage
(container.StatsResponse). -/
structure ContainerCPUStats where
  totalUsage : Nat
  preTotalUsage : Nat
  systemUsage : Nat
  preSystemUsage : Nat
  onlineCPUs : Nat
  percpuUsage : List Nat

/-- Go uint64 subtraction: (a - b) taken modulo two to the sixty-fourth. -/
def wrapSub64 (a b : Nat) : Nat :=
  (a % 2 ^ 64 + 2 ^ 64 - b % 2 ^ 64) % 2 ^ 64

/-- cpuDelta as computed in the Go source, after the uint64 wrap. -/
def cpuDelta (s : ContainerCPUStats) : ℚ :=
  (wrapSub64 s.totalUsage s.preTotalUsage : ℚ)

/-- systemDelta as computed in the Go source, after the uint64 wrap. -/
def systemDelta (s : ContainerCPUStats) : ℚ :=
  (wrapSub64 s.systemUsage s.preSystemUsage : ℚ)

/-- The numCPUs fallback chain of calculateCPUPercentage: OnlineCPUs,
then the length of PercpuUsage when that count is zero, then one. -/
def numCPUs (s : ContainerCPUStats) : ℚ :=
  if s.onlineCPUs = 0 then
    if s.percpuUsage.length > 0 then (s.percpuUsage.length : ℚ) else 1
  else (s.onlineCPUs : ℚ)

/-- Embeds calculateCPUPercentage: zero on non-positive system delta or
negative cpu delta, otherwise the ratio scaled by numCPUs and one
hundred, clamped to the unit-percent range. -/
def calculateCPUPercentage (s : ContainerCPUStats) : ℚ :=
  if systemDelta s ≤ 0 ∨ cpuDelta s < 0 then 0
  else
    let cpuPercent := cpuDelta s / systemDelta s * numCPUs s * 100
    if cpuPercent > 100 then 100
    else if cpuPercent < 0 then 0
    else cpuPercent

/-! ## Sink fan-out

Embeds StoreAllMetrics from internal/server/storage/metrics/metrics.go.
The per-sink goroutines are modelled by their observable outcomes: one
Option error per sink, in sink order (none means Store returned nil).
The function gathers the errors from the channel, logs each, and
returns nil unconditionally.
-/

/-- A Go error value, abstracted to its message. -/
abbrev GoError := String

/-- Result of one StoreAllMetrics call: the errors drained from the
channel and logged, and the value returned to the caller. -/
structure FanoutResult where
  logged : List GoError
  ret : Option GoError
  deriving DecidableEq

/-- Embeds StoreAllMetrics: every sink error is collected and logged,
and the function returns nil regardless. -/
def storeAllMetrics (sinkErrors : List (Option GoError)) : FanoutResult :=
  { logged := sinkErrors.filterMap id, ret := none }

/-! ## Server stream endpoint

Embeds the receive loop of SendStreamMetrics (MetricService).  One loop
iteration observes either the cancellation of the stream context, a
Recv error, or a received payload; for a payload the code calls
StoreAllMetrics and then Send.  The payload itself only matters through
the per-sink Store outcomes, so the event carries those.
-/

/-- One observable event of the SendStreamMetrics loop. -/
inductive StreamEvent
  | ctxDone
  | recvFail (e : GoError)
  | payload (sinkErrors : List (Option GoError)) (sendErr : Option GoError)

/-- Why the SendStreamMetrics loop returned an error status. -/
inductive TermCause
  | cancelled
  | recvFailure
  | storeFailure
  | sendFailure
  deriving DecidableEq

/-- Embeds the SendStreamMetrics loop over a finite event trace; none
means the loop is still running after the trace. -/
def sendStreamMetrics : List StreamEvent → Option TermCause
  | [] => none
  | StreamEvent.ctxDone :: _ => some TermCause.cancelled
  | StreamEvent.recvFail _ :: _ => some TermCause.recvFailure
  | StreamEvent.payload sinkErrors sendErr :: rest =>
    match (storeAllMetrics sinkErrors).ret with
    | some _ => some TermCause.storeFailure
    | none =>
      match sendErr with
      | some _ => some TermCause.sendFailure
      | none => sendStreamMetrics rest

/-! ## Per-family sink Store with retry

Embeds sendWithRetry from metrics.go and Store from cpu_store.go.  The
HTTP POST outcomes are supplied as a function from the attempt index
(zero-based) to the observed outcome.  Sleeps are recorded in
milliseconds, in order, one entry before each attempt (zero before the
first, matching the skipped sleep in the source).
-/

/-- Outcome of one client.Post call. -/
inductive AttemptOutcome
  | postErr (e : GoError)
  | status (code : Nat)

/-- The success test of sendWithRetry: status 204 or 200. -/
def attemptSucceeds : AttemptOutcome → Bool
  | AttemptOutcome.postErr _ => false
  | AttemptOutcome.status c => c = 204 || c = 200

/-- The error recorded into lastErr by a failed attempt. -/
def attemptError : AttemptOutcome → GoError
  | AttemptOutcome.postErr e => e
  | AttemptOutcome.status c => "unexpected status code: " ++ toString c

/-- The wrapped error built after the final attempt fails. -/
def retriesExhausted (metricType : String) (lastErr : Option GoError) : GoError :=
  "failed to send " ++ metricType ++ " metrics after 3 attempts: " ++
    (match lastErr with
     | some e => e
     | none => "<nil>")

/-- Observable trace of one sendWithRetry call. -/
structure RetryTrace where
  attempts : Nat
  sleepsMs : List Nat
  result : Option GoError
  deriving DecidableEq

/-- The retry loop of sendWithRetry from a given attempt index, with
the remaining loop iterations as fuel (the source fixes three). -/
def retryFrom (outcomes : Nat → AttemptOutcome) (metricType : String) :
    Nat → Nat → Option GoError → RetryTrace
  | 0, _, lastErr =>
    { attempts := 0, sleepsMs := [], result := some (retriesExhausted metricType lastErr) }
  | remaining + 1, attempt, _ =>
    let sleep := attempt * 500
    if attemptSucceeds (outcomes attempt) then
      { attempts := 1, sleepsMs := [sleep], result := none }
    else
      let r := retryFrom outcomes metricType remaining (attempt + 1)
        (some (attemptError (outcomes attempt)))
      { attempts := r.attempts + 1, sleepsMs := sleep :: r.sleepsMs, result := r.result }

/-- Embeds sendWithRetry: three attempts starting at attempt zero with
no prior error. -/
def sendWithRetry (outcomes : Nat → AttemptOutcome) (metricType : String) : RetryTrace :=
  retryFrom outcomes metricType 3 0 none

/-- Embeds Store of the CPU sink (cpu_store.go): empty data is a no-op
success, otherwise the joined payload goes through sendWithRetry. -/
def cpuStoreStore (data : List String) (outcomes : Nat → AttemptOutcome) : RetryTrace :=
  if data = [] then { attempts := 0, sleepsMs := [], result := none }
  else sendWithRetry outcomes "CPU"

/-! ## Agent CPU collector

Embeds the stateful CPUCollector of cpu_collector.go: the gopsutil
TimesStat and InfoStat records, calculateCPUUsagePercentage, the
buildCPUMetrics assembly, and the Collect entry point with its one-shot
warm-up recursion.  Times and percentages are rationals; wall-clock
instants are nanosecond integers with zero standing for the Go zero
time (time.Time.IsZero).
-/

/-- gopsutil cpu.TimesStat, the fields the collector reads. -/
structure TimesStat where
  cpu : String
  user : ℚ
  system : ℚ
  idle : ℚ
  nice : ℚ
  iowait : ℚ
  irq : ℚ
  softirq : ℚ
  steal : ℚ
  deriving DecidableEq, Inhabited

/-- gopsutil cpu.InfoStat, the fields the collector reads. -/
structure InfoStat where
  modelName : String
  mhz : ℚ
  deriving DecidableEq, Inhabited

/-- model.CPUMetrics as assembled by buildCPUMetrics. -/
structure CPUMetrics where
  model : String
  cores : Nat
  threads : Nat
  frequencyMHz : ℚ
  usagePercent : ℚ
  userTime : ℚ
  systemTime : ℚ
  idleTime : ℚ
  coreID : Nat
  isTotal : Bool
  deriving DecidableEq, Inhabited

/-- Embeds calculateCPUUsagePercentage: busy share of the combined
counter delta, zero when the combined delta is zero.  The timeDelta
argument is received but unused, exactly as in the source. -/
def calculateCPUUsagePercentage (current last : TimesStat) (_timeDelta : ℚ) : ℚ :=
  let totalDiff := (current.user + current.system + current.nice + current.iowait +
      current.irq + current.softirq + current.steal) -
    (last.user + last.system + last.nice + last.iowait +
      last.irq + last.softirq + last.steal)
  let idleDiff := (current.idle + current.iowait) - (last.idle + last.iowait)
  let totalTime := totalDiff + idleDiff
  if totalTime = 0 then 0
  else (totalTime - idleDiff) / totalTime * 100

/-- The loop body of buildCPUMetrics: the per-core sample for core
index i, with a one-based core id and the total flag clear. -/
def perCoreMetric (defaultFrequencyMHz : ℚ) (perCorePercentages : List ℚ)
    (cpuTimes : List TimesStat) (i : Nat) : CPUMetrics :=
  let t := cpuTimes.getD i default
  { model := "CPU " ++ toString (i + 1)
    cores := 1
    threads := 1
    frequencyMHz := defaultFrequencyMHz
    usagePercent := perCorePercentages.getD i 0
    userTime := t.user
    systemTime := t.system
    idleTime := t.idle
    coreID := i + 1
    isTotal := false }

/-- Embeds buildCPUMetrics: one aggregate sample flagged total followed
by one sample per physical core bounded by the per-core times length,
with core ids starting at one.  The source indexes cpuInfo and cpuTimes
at zero unconditionally, so empty input panics: that is the none case. -/
def buildCPUMetrics (cpuInfo : List InfoStat) (perCorePercentages : List ℚ)
    (totalUsagePercent : ℚ) (cpuTimes : List TimesStat)
    (physicalCount logicalCount : Nat) : Option (List CPUMetrics) :=
  match cpuInfo, cpuTimes with
  | [], _ => none
  | _, [] => none
  | info0 :: _, t0 :: _ =>
    let defaultFrequencyMHz := info0.mhz
    let totalMetric : CPUMetrics :=
      { model := info0.modelName
        cores := physicalCount
        threads := logicalCount
        frequencyMHz := defaultFrequencyMHz
        usagePercent := totalUsagePercent
        userTime := t0.user
        systemTime := t0.system
        idleTime := t0.idle
        coreID := 0
        isTotal := true }
    let k := min physicalCount cpuTimes.length
    let perCore := (List.range k).map
      (perCoreMetric defaultFrequencyMHz perCorePercentages cpuTimes)
    some (totalMetric :: perCore)

/-- The mutable sampling state of CPUCollector (the static-info cache
is orthogonal to the claims and folded into the environment). -/
structure CPUState where
  lastCPUTimes : List TimesStat
  lastTotalTimes : TimesStat
  lastCollectTime : Int
  deriving Inhabited

/-- What one execution of the Collect body observes from the outside
world: the cached static data (or its error), the two cpu.Times reads
(none models an error return) and the current instant. -/
structure CPUSampleEnv where
  staticErr : Option GoError
  cpuInfo : List InfoStat
  logicalCount : Nat
  physicalCount : Nat
  totalTimes : Option (List TimesStat)
  perCoreTimes : Option (List TimesStat)
  now : Int

/-- Outcome of one Collect call. -/
inductive CollectOut
  | fail (e : Option GoError)
  | panicked
  | ok (ms : List CPUMetrics)

/-- One pass through the Collect body: either a return value with the
updated state, or (warm-up branch, taken when lastCollectTime is the
zero time) the state in which Collect re-enters itself. -/
def collectBody (e : CPUSampleEnv) (s : CPUState) :
    Sum (CollectOut × CPUState) CPUState :=
  match e.staticErr with
  | some err => Sum.inl (CollectOut.fail (some err), s)
  | none =>
    match e.totalTimes with
    | none => Sum.inl (CollectOut.fail none, s)
    | some tt =>
      if h : tt = [] then Sum.inl (CollectOut.fail none, s)
      else
        let t0 := tt.head h
        if s.lastCollectTime = 0 then
          Sum.inr
            { lastTotalTimes := t0
              lastCollectTime := e.now
              lastCPUTimes := e.perCoreTimes.getD [] }
        else
          let timeDelta : ℚ := ((e.now - s.lastCollectTime : Int) : ℚ) / 1000000000
          let totalUsagePercent :=
            if timeDelta > 0 ∧ s.lastTotalTimes.cpu.length > 0 then
              calculateCPUUsagePercentage t0 s.lastTotalTimes timeDelta
            else 0
          let currentCPUTimes := e.perCoreTimes.getD []
          let perCorePercentages :=
            if e.perCoreTimes.isSome ∧ s.lastCPUTimes ≠ [] then
              (List.range currentCPUTimes.length).map fun i =>
                if i < s.lastCPUTimes.length then
                  calculateCPUUsagePercentage (currentCPUTimes.getD i default)
                    (s.lastCPUTimes.getD i default) timeDelta
                else 0
            else []
          let s2 : CPUState :=
            { lastCPUTimes := currentCPUTimes
              lastTotalTimes := t0
              lastCollectTime := e.now }
          match buildCPUMetrics e.cpuInfo perCorePercentages totalUsagePercent
              currentCPUTimes e.physicalCount e.logicalCount with
          | none => Sum.inl (CollectOut.panicked, s2)
          | some ms => Sum.inl (CollectOut.ok ms, s2)

/-- Embeds Collect with explicit recursion fuel and the call index into
the environment.  A none result means the fuel did not cover the
recursion depth. -/
def collectAux (env : Nat → CPUSampleEnv) :
    Nat → Nat → CPUState → Option (CollectOut × CPUState)
  | 0, _, _ => none
  | fuel + 1, k, s =>
    match collectBody (env k) s with
    | Sum.inl r => some r
    | Sum.inr s1 => collectAux env fuel (k + 1) s1

/-! ## Agent health monitor

Embeds healthCheckLoop and watchHealth from
internal/agent/healthcheck/healthcheck.go.  The atomic healthy flag is
a Bool threaded through the writes the two functions perform, in
program order: a failed Watch open is followed by setHealthy(false) in
the loop; a successful open runs setHealthy(true); each successful Recv
leaves the flag alone; the Recv error that ends the stream runs the
deferred setHealthy(false).
-/

/-- One flag-relevant event of the health monitor. -/
inductive HEvent
  | openFail
  | openOk
  | recvOk
  | recvErr
  deriving DecidableEq

/-- The write the healthy flag receives on one event. -/
def healthyStep (h : Bool) : HEvent → Bool
  | HEvent.openFail => false
  | HEvent.openOk => true
  | HEvent.recvOk => h
  | HEvent.recvErr => false

/-- The healthy flag after a trace of events, from its initial false
(the zero value of atomic.Bool). -/
def healthyAfter (evs : List HEvent) : Bool :=
  evs.foldl healthyStep false

/-- One completed watchHealth call: either the Watch open failed, or it
succeeded and the Recv loop ran some number of times before the error
that ended the stream. -/
inductive WatchSession
  | openFail
  | openThenClose (recvOks : Nat)
  deriving DecidableEq

/-- The value watchHealth returns for a completed call.  Both exits of
the source return false: the open-failure path explicitly, and the Recv
loop only through its error branch, so the success branch of the
caller never sees true. -/
def watchHealthResult : WatchSession → Bool
  | WatchSession.openFail => false
  | WatchSession.openThenClose _ => false

/-- healthCheckLoop constants: base backoff and cap, in seconds. -/
def backoffBase : Nat := 2

/-- The 30 second backoff cap of healthCheckLoop. -/
def maxBackoff : Nat := 30

/-- One healthCheckLoop iteration around a completed watchHealth call:
the new backoff delay and the backoff sleep performed, if any.  On a
true result the loop resets the delay and sleeps the interval instead;
on false it sleeps the current delay, then doubles and caps it. -/
def healthLoopStep (d : Nat) (s : WatchSession) : Nat × Option Nat :=
  if watchHealthResult s then (backoffBase, none)
  else (min (2 * d) maxBackoff, some d)

/-- healthCheckLoop over a list of completed watchHealth calls: final
backoff delay and the backoff sleeps performed, in order. -/
def healthLoopRun : Nat → List WatchSession → Nat × List Nat
  | d, [] => (d, [])
  | d, s :: rest =>
    let step := healthLoopStep d s
    let tail := healthLoopRun step.1 rest
    (tail.1, (match step.2 with
              | some x => [x]
              | none => []) ++ tail.2)

/-! ## Agent stream-open retry

Embeds connectWithRetry from the agent main package.  The source
computes, for BaseDelay b = one second in nanoseconds and Multiplier
two, delay = b * Duration(float64(b) * float64(retryCount) * 2.0) as an
int64 product, then caps at MaxDelay.  For the attempt counts reached
in practice (far below two to the twenty) the float64 products are
exact integers, so the rational detour is dropped and the arithmetic is
integer arithmetic with int64 wrap.
-/

/-- Go int64 wraparound. -/
def i64wrap (x : Int) : Int :=
  (x + 2 ^ 63) % 2 ^ 64 - 2 ^ 63

/-- connectWithRetry BaseDelay, nanoseconds. -/
def connBaseDelayNs : Int := 1000000000

/-- connectWithRetry MaxDelay, nanoseconds. -/
def connMaxDelayNs : Int := 60000000000

/-- The pre-jitter capped delay connectWithRetry computes for a given
retryCount: the inner Duration conversion, the outer multiplication by
BaseDelay again (both with int64 wrap), then the cap. -/
def connectRetryDelay (retryCount : Nat) : Int :=
  let inner := i64wrap (connBaseDelayNs * retryCount * 2)
  let delay := i64wrap (connBaseDelayNs * inner)
  if delay > connMaxDelayNs then connMaxDelayNs else delay

/-- Modelled from the spec: the delay the specification prescribes for
the stream-open retry loop, min(cap, base × attempt × multiplier) with
base one second, multiplier two, cap sixty seconds, before jitter. -/
def specConnectRetryDelay (retryCount : Nat) : Int :=
  min connMaxDelayNs (connBaseDelayNs * retryCount * 2)

/-! ## Server health watch

Embeds RegisterClient, UnregisterClient and Watch from
internal/server/service/healthcheck_service.go.  The session map is an
association list keyed by the client id; Go map assignment replaces the
key, delete removes it.
-/

/-- ClientInfo as stored in the session map. -/
structure ClientInfo where
  id : String
  hostname : String
  ipAddress : String
  connectedAt : Int
  deriving DecidableEq, Inhabited

/-- The session map. -/
abbrev SessionMap := List (String × ClientInfo)

/-- Go map assignment: replace any existing entry for the key. -/
def mapInsert (m : SessionMap) (id : String) (info : ClientInfo) : SessionMap :=
  (id, info) :: m.filter fun p => ¬p.1 = id

/-- Go delete: remove the entry for the key. -/
def mapDelete (id : String) (m : SessionMap) : SessionMap :=
  m.filter fun p => ¬p.1 = id

/-- The serving statuses sent on a watch stream. -/
inductive ServingStatus
  | serving
  | notServing
  deriving DecidableEq

/-- How one Watch call ends: the initial status send fails, the client
context is cancelled, or the service shutdown context fires (the
not-serving send is then attempted best effort, succeeding or not). -/
inductive WatchOutcome
  | initialSendErr (e : GoError)
  | clientCancel
  | shutdown (notServingSendOk : Bool)

/-- Observable result of one Watch call: the map right after
registration, the map after the deferred unregistration, the statuses
passed to sendStatus in order, and the returned error. -/
structure WatchResult where
  registered : SessionMap
  map : SessionMap
  sends : List ServingStatus
  err : Option GoError

/-- Embeds Watch of HealthCheckService: register, send SERVING, block,
and on every exit path unregister via the deferred call. -/
def watch (m : SessionMap) (id hostname ip : String) (now : Int)
    (o : WatchOutcome) : WatchResult :=
  let m1 := mapInsert m id { id := id, hostname := hostname, ipAddress := ip, connectedAt := now }
  match o with
  | WatchOutcome.initialSendErr e =>
    { registered := m1, map := mapDelete id m1, sends := [ServingStatus.serving], err := some e }
  | WatchOutcome.clientCancel =>
    { registered := m1, map := mapDelete id m1, sends := [ServingStatus.serving],
      err := some "context canceled" }
  | WatchOutcome.shutdown _ =>
    { registered := m1, map := mapDelete id m1,
      sends := [ServingStatus.serving, ServingStatus.notServing], err := none }

/-- A session-map mutation: the registration at Watch entry or the
unregistration at Watch exit. -/
inductive SessEvent
  | enter (id : String) (info : ClientInfo)
  | leave (id : String)

/-- Apply one mutation to the session map. -/
def applyEvent (m : SessionMap) : SessEvent → SessionMap
  | SessEvent.enter id info => mapInsert m id info
  | SessEvent.leave id => mapDelete id m

/-- Apply a trace of mutations in order. -/
def applyEvents (m : SessionMap) (tr : List SessEvent) : SessionMap :=
  tr.foldl applyEvent m

/-- The registration polarity of the events concerning one id, in
order: true for a registration, false for an unregistration. -/
def eventsOn (id : String) (tr : List SessEvent) : List Bool :=
  tr.filterMap fun e =>
    match e with
    | SessEvent.enter i _ => if i = id then some true else none
    | SessEvent.leave i => if i = id then some false else none

/-- A trace after which graceful shutdown is complete: no session has a
registration as its last event, every Watch having run its deferred
unregistration. -/
def completedTrace (tr : List SessEvent) : Prop :=
  ∀ id, (eventsOn id tr).getLast? ≠ some true

/-! ## Theorems -/

theorem lastIndexOf_of_not_mem {c : Char} : ∀ {l : List Char}, c ∉ l → lastIndexOf c l = none
  | [], _ => rfl
  | x :: xs, h => by
    have hx : ¬x = c := fun hxc => h (hxc ▸ List.mem_cons_self x xs)
    have hxs : c ∉ xs := fun hm => h (List.mem_cons_of_mem _ hm)
    simp [lastIndexOf, lastIndexOf_of_not_mem hxs, hx]

theorem lastIndexOf_append_last {c : Char} (a : List Char) {b : List Char} (hb : c ∉ b) :
    lastIndexOf c (a ++ c :: b) = some a.length := by
  induction a with
  | nil => simp [lastIndexOf, lastIndexOf_of_not_mem hb]
  | cons x xs ih => simp [lastIndexOf, ih]

/-- The part_000 copy of parseImageName does satisfy the rightmost-colon
property: an input containing a colon yields the text before the last
colon and the text after it, an input with no colon yields the input
with tag latest, and the two literal examples of the specification
evaluate as stated. -/
theorem parseImageName_rightmost_split :
    (∀ a b : List Char, ':' ∉ b → parseImageName (a ++ ':' :: b) = (a, b)) ∧
    (∀ l : List Char, ':' ∉ l → parseImageName l = (l, "latest".data)) ∧
    parseImageName "a:b:c".data = ("a:b".data, "c".data) ∧
    parseImageName "registry:5000/img:v1".data = ("registry:5000/img".data, "v1".data) := by
  refine ⟨?_, ?_, by decide, by decide⟩
  · intro a b hb
    have h := lastIndexOf_append_last a hb
    simp only [parseImageName, h]
    refine Prod.ext ?_ ?_
    · exact List.take_left a _
    · show (a ++ ':' :: b).drop (a.length + 1) = b
      have hsplit : a ++ ':' :: b = (a ++ [':']) ++ b := by simp
      have hlen : a.length + 1 = (a ++ [':']).length := by simp
      rw [hsplit, hlen]
      exact List.drop_left _ _
  · intro l hl
    simp [parseImageName, lastIndexOf_of_not_mem hl]

/-- C2 (code bug): the two staged copies of parseImageName disagree on
the literal examples of the claim.  The part_000 copy splits at the
rightmost colon as claimed, but the docker_collector.go copy splits at
the first colon: on the input a colon b colon c it returns the first
two fields, and on a registry reference with a port it returns the
registry host and the port-and-path fragment instead of the image name
and tag, contradicting the claim at those inputs. -/
theorem parse_image_name_copies_diverge :
    parseImageName "a:b:c".data = ("a:b".data, "c".data) ∧
    parseImageName "registry:5000/img:v1".data = ("registry:5000/img".data, "v1".data) ∧
    parseImageNameSplit "a:b:c".data = ("a".data, "b".data) ∧
    parseImageNameSplit "registry:5000/img:v1".data = ("registry".data, "5000/img".data) ∧
    parseImageNameSplit "a:b:c".data ≠ ("a:b".data, "c".data) ∧
    parseImageNameSplit "registry:5000/img:v1".data ≠
      ("registry:5000/img".data, "v1".data) := by
  refine ⟨by decide, by decide, by decide, by decide, by decide, by decide⟩

theorem clamp_eq_min_max (p : ℚ) :
    (if p > 100 then (100 : ℚ) else if p < 0 then 0 else p) = min 100 (max 0 p) := by
  by_cases h1 : p > 100
  · rw [if_pos h1, max_eq_right (by linarith : (0 : ℚ) ≤ p), min_eq_left (by linarith : (100 : ℚ) ≤ p)]
  · rw [if_neg h1]
    by_cases h2 : p < 0
    · rw [if_pos h2, max_eq_left (by linarith : p ≤ (0 : ℚ)), min_eq_right (by norm_num : (0 : ℚ) ≤ 100)]
    · rw [if_neg h2, max_eq_right (by linarith : (0 : ℚ) ≤ p), min_eq_right (by linarith : p ≤ (100 : ℚ))]

theorem calculateCPUPercentage_eq (s : ContainerCPUStats) :
    calculateCPUPercentage s =
      if systemDelta s ≤ 0 ∨ cpuDelta s < 0 then 0
      else min 100 (max 0 (cpuDelta s / systemDelta s * numCPUs s * 100)) := by
  unfold calculateCPUPercentage
  split
  · rfl
  · exact clamp_eq_min_max _

/-- C3: the container CPU usage percent is the ratio of the computed
cpu delta to the computed system delta scaled by the cpu count and one
hundred, clamped to the range from zero to one hundred; it is exactly
zero whenever the system delta is non-positive or the cpu delta is
negative; and the cpu count is the online-CPU count, falling back to
the per-CPU usage slice length when that count is zero and to one when
that length is also zero. -/
theorem container_cpu_percent_spec (s : ContainerCPUStats) :
    (0 ≤ calculateCPUPercentage s ∧ calculateCPUPercentage s ≤ 100) ∧
    (systemDelta s ≤ 0 ∨ cpuDelta s < 0 → calculateCPUPercentage s = 0) ∧
    (0 < systemDelta s → 0 ≤ cpuDelta s →
      calculateCPUPercentage s =
        min 100 (max 0 (cpuDelta s / systemDelta s * numCPUs s * 100))) ∧
    numCPUs s =
      (if s.onlineCPUs ≠ 0 then (s.onlineCPUs : ℚ)
       else if s.percpuUsage.length ≠ 0 then (s.percpuUsage.length : ℚ) else 1) := by
  refine ⟨?_, ?_, ?_, ?_⟩
  · rw [calculateCPUPercentage_eq]
    split
    · norm_num
    · exact ⟨le_min (by norm_num) (le_max_left _ _), min_le_left _ _⟩
  · intro h
    rw [calculateCPUPercentage_eq, if_pos h]
  · intro h1 h2
    rw [calculateCPUPercentage_eq, if_neg]
    rintro (h | h) <;> linarith
  · by_cases h : s.onlineCPUs = 0
    · by_cases h2 : s.percpuUsage.length = 0
      · simp [numCPUs, h, h2]
      · simp [numCPUs, h, h2, Nat.pos_of_ne_zero h2]
    · simp [numCPUs, h]

/-- Witness for C3 at a concrete input with a zero system delta. -/
theorem container_cpu_percent_spec_witness :
    calculateCPUPercentage ⟨10, 5, 7, 7, 2, []⟩ = 0 :=
  (container_cpu_percent_spec ⟨10, 5, 7, 7, 2, []⟩).2.1
    (Or.inl (by norm_num [systemDelta, wrapSub64]))

/-- C1: the sink fan-out returns success whenever it is invoked, even
if some or all per-family sinks fail, and consequently the stream
endpoint never terminates because of a sink error: every error return
of the receive loop stems from the stream itself (cancellation of the
stream context, a Recv error, or a Send error), never from the store. -/
theorem sink_fanout_never_fails :
    (∀ sinkErrors : List (Option GoError), (storeAllMetrics sinkErrors).ret = none) ∧
    (∀ (evs : List StreamEvent) (c : TermCause), sendStreamMetrics evs = some c →
      c = TermCause.cancelled ∨ c = TermCause.recvFailure ∨ c = TermCause.sendFailure) := by
  refine ⟨fun _ => rfl, ?_⟩
  intro evs
  induction evs with
  | nil => intro c h; simp [sendStreamMetrics] at h
  | cons e rest ih =>
    intro c h
    cases e with
    | ctxDone =>
      simp only [sendStreamMetrics, Option.some.injEq] at h
      exact Or.inl h.symm
    | recvFail e0 =>
      simp only [sendStreamMetrics, Option.some.injEq] at h
      exact Or.inr (Or.inl h.symm)
    | payload sinkErrors sendErr =>
      cases sendErr with
      | some e0 =>
        simp only [sendStreamMetrics, storeAllMetrics, Option.some.injEq] at h
        exact Or.inr (Or.inr h.symm)
      | none => exact ih c h

/-- Witness for C1: a Recv error is the cause of a termination. -/
theorem sink_fanout_never_fails_witness :
    TermCause.recvFailure = TermCause.cancelled ∨
      TermCause.recvFailure = TermCause.recvFailure ∨
      TermCause.recvFailure = TermCause.sendFailure :=
  sink_fanout_never_fails.2 [StreamEvent.recvFail "connection reset"] TermCause.recvFailure rfl

theorem retryFrom_succ (outcomes : Nat → AttemptOutcome) (mt : String)
    (remaining attempt : Nat) (lastErr : Option GoError) :
    retryFrom outcomes mt (remaining + 1) attempt lastErr =
      if attemptSucceeds (outcomes attempt) = true then
        { attempts := 1, sleepsMs := [attempt * 500], result := none }
      else
        { attempts := (retryFrom outcomes mt remaining (attempt + 1)
            (some (attemptError (outcomes attempt)))).attempts + 1
          sleepsMs := attempt * 500 :: (retryFrom outcomes mt remaining (attempt + 1)
            (some (attemptError (outcomes attempt)))).sleepsMs
          result := (retryFrom outcomes mt remaining (attempt + 1)
            (some (attemptError (outcomes attempt)))).result } := by
  cases h : attemptSucceeds (outcomes attempt) <;> simp [retryFrom, h]

/-- C4: Store with non-empty lines attempts the HTTP POST at most three
times, with a delay of the attempt index times five hundred
milliseconds before each attempt (zero, then five hundred, then one
thousand); an attempt with a status response succeeds exactly when the
code is two hundred or two hundred and four; the call succeeds exactly
when some performed attempt succeeded; and after three failed attempts
the wrapped last error is returned. -/
theorem sink_store_retry_spec (data : List String) (outcomes : Nat → AttemptOutcome)
    (hdata : data ≠ []) :
    (cpuStoreStore data outcomes).attempts ≤ 3 ∧
    (cpuStoreStore data outcomes).sleepsMs =
      (List.range (cpuStoreStore data outcomes).attempts).map (fun i => i * 500) ∧
    (∀ c, attemptSucceeds (AttemptOutcome.status c) = true ↔ c = 200 ∨ c = 204) ∧
    ((cpuStoreStore data outcomes).result = none ↔
      ∃ i, i < (cpuStoreStore data outcomes).attempts ∧
        attemptSucceeds (outcomes i) = true) ∧
    ((∀ i, i < 3 → attemptSucceeds (outcomes i) = false) →
      (cpuStoreStore data outcomes).attempts = 3 ∧
      (cpuStoreStore data outcomes).result =
        some (retriesExhausted "CPU" (some (attemptError (outcomes 2))))) := by
  have hstatus : ∀ c, attemptSucceeds (AttemptOutcome.status c) = true ↔ c = 200 ∨ c = 204 := by
    intro c
    simp only [attemptSucceeds, Bool.or_eq_true, decide_eq_true_eq]
    tauto
  have hc : cpuStoreStore data outcomes = sendWithRetry outcomes "CPU" := by
    simp [cpuStoreStore, hdata]
  rw [hc]
  have hun : sendWithRetry outcomes "CPU" = retryFrom outcomes "CPU" (2 + 1) 0 none := rfl
  by_cases h0 : attemptSucceeds (outcomes 0) = true
  · have htr : sendWithRetry outcomes "CPU" =
        { attempts := 1, sleepsMs := [0], result := none } := by
      rw [hun, retryFrom_succ, if_pos h0]
    rw [htr]
    refine ⟨by norm_num, by decide, hstatus, ?_, ?_⟩
    · exact ⟨fun _ => ⟨0, Nat.zero_lt_one, h0⟩, fun _ => rfl⟩
    · intro hall
      rw [hall 0 (by norm_num)] at h0
      cases h0
  · by_cases h1 : attemptSucceeds (outcomes 1) = true
    · have htr : sendWithRetry outcomes "CPU" =
          { attempts := 2, sleepsMs := [0, 500], result := none } := by
        rw [hun, retryFrom_succ, if_neg h0,
          show (2 : Nat) = 1 + 1 from rfl, retryFrom_succ,
          show (0 : Nat) + 1 = 1 from rfl, if_pos h1]
      rw [htr]
      refine ⟨by norm_num, by decide, hstatus, ?_, ?_⟩
      · exact ⟨fun _ => ⟨1, by norm_num, h1⟩, fun _ => rfl⟩
      · intro hall
        rw [hall 1 (by norm_num)] at h1
        cases h1
    · by_cases h2 : attemptSucceeds (outcomes 2) = true
      · have htr : sendWithRetry outcomes "CPU" =
            { attempts := 3, sleepsMs := [0, 500, 1000], result := none } := by
          rw [hun, retryFrom_succ, if_neg h0,
            show (2 : Nat) = 1 + 1 from rfl, retryFrom_succ,
            show (0 : Nat) + 1 = 1 from rfl, if_neg h1,
            show (1 : Nat) = 0 + 1 from rfl, retryFrom_succ,
            show (0 : Nat) + 1 + 1 = 2 from rfl, if_pos h2]
        rw [htr]
        refine ⟨by norm_num, by decide, hstatus, ?_, ?_⟩
        · exact ⟨fun _ => ⟨2, by norm_num, h2⟩, fun _ => rfl⟩
        · intro hall
          rw [hall 2 (by norm_num)] at h2
          cases h2
      · have htr : sendWithRetry outcomes "CPU" =
            { attempts := 3, sleepsMs := [0, 500, 1000],
              result := some (retriesExhausted "CPU"
                (some (attemptError (outcomes 2)))) } := by
          rw [hun, retryFrom_succ, if_neg h0,
            show (2 : Nat) = 1 + 1 from rfl, retryFrom_succ,
            show (0 : Nat) + 1 = 1 from rfl, if_neg h1,
            show (1 : Nat) = 0 + 1 from rfl, retryFrom_succ,
            show (0 : Nat) + 1 + 1 = 2 from rfl, if_neg h2]
          rfl
        rw [htr]
        refine ⟨by norm_num, by rfl, hstatus, ?_, fun _ => ⟨rfl, rfl⟩⟩
        constructor
        · intro hn
          cases hn
        · rintro ⟨i, hi, hsi⟩
          interval_cases i
          · exact absurd hsi h0
          · exact absurd hsi h1
          · exact absurd hsi h2

/-- Witness for C4: a sink that always answers 503 performs three
attempts, sleeps zero, five hundred and one thousand milliseconds, and
reports the wrapped last error. -/
theorem sink_store_retry_spec_witness :
    (cpuStoreStore ["line"] (fun _ => AttemptOutcome.status 503)).attempts ≤ 3 ∧
    (cpuStoreStore ["line"] (fun _ => AttemptOutcome.status 503)).sleepsMs =
      (List.range (cpuStoreStore ["line"] (fun _ => AttemptOutcome.status 503)).attempts).map
        (fun i => i * 500) ∧
    (∀ c, attemptSucceeds (AttemptOutcome.status c) = true ↔ c = 200 ∨ c = 204) ∧
    ((cpuStoreStore ["line"] (fun _ => AttemptOutcome.status 503)).result = none ↔
      ∃ i, i < (cpuStoreStore ["line"] (fun _ => AttemptOutcome.status 503)).attempts ∧
        attemptSucceeds ((fun _ => AttemptOutcome.status 503) i) = true) ∧
    ((∀ i, i < 3 → attemptSucceeds ((fun _ => AttemptOutcome.status 503) i) = false) →
      (cpuStoreStore ["line"] (fun _ => AttemptOutcome.status 503)).attempts = 3 ∧
      (cpuStoreStore ["line"] (fun _ => AttemptOutcome.status 503)).result =
        some (retriesExhausted "CPU"
          (some (attemptError ((fun _ => AttemptOutcome.status 503) 2))))) :=
  sink_store_retry_spec ["line"] (fun _ => AttemptOutcome.status 503) (by simp)

/-- C5: every CPU metrics slice built by the stateful CPU collector
contains exactly one sample with the total flag set, and the core ids
of its per-core samples are exactly one up to the per-core count, hence
one-based and strictly increasing. -/
theorem perCore_all_not_total (d : ℚ) (p : List ℚ) (t : List TimesStat) (k : Nat) :
    ∀ m ∈ (List.range k).map (perCoreMetric d p t), m.isTotal = false := by
  intro m hm
  obtain ⟨i, -, hi⟩ := List.mem_map.mp hm
  rw [← hi]
  rfl

theorem perCore_map_coreID (d : ℚ) (p : List ℚ) (t : List TimesStat) (k : Nat) :
    ((List.range k).map (perCoreMetric d p t)).map (fun m => m.coreID) =
      List.range' 1 k := by
  rw [List.map_map, List.range'_eq_map_range]
  refine List.map_congr_left fun a _ => ?_
  simp [Function.comp, perCoreMetric, Nat.add_comm]

theorem build_cpu_metrics_invariant (cpuInfo : List InfoStat) (perCorePercentages : List ℚ)
    (totalUsagePercent : ℚ) (cpuTimes : List TimesStat) (physicalCount logicalCount : Nat)
    (ms : List CPUMetrics)
    (h : buildCPUMetrics cpuInfo perCorePercentages totalUsagePercent cpuTimes
      physicalCount logicalCount = some ms) :
    ((ms.filter fun m => m.isTotal).length = 1) ∧
    ((ms.filter fun m => !m.isTotal).map (fun m => m.coreID) =
      List.range' 1 (min physicalCount cpuTimes.length)) ∧
    List.Chain' (· < ·) ((ms.filter fun m => !m.isTotal).map fun m => m.coreID) := by
  cases cpuInfo with
  | nil => simp [buildCPUMetrics] at h
  | cons info0 irest =>
    cases cpuTimes with
    | nil => simp [buildCPUMetrics] at h
    | cons t0 trest =>
      simp only [buildCPUMetrics, Option.some.injEq] at h
      subst h
      have hall := perCore_all_not_total info0.mhz perCorePercentages (t0 :: trest)
        (min physicalCount (t0 :: trest).length)
      refine ⟨?_, ?_, ?_⟩
      · rw [List.filter_cons_of_pos (by rfl),
          List.filter_eq_nil_iff.mpr (by intro a ha; simp [hall a ha])]
        rfl
      · rw [List.filter_cons_of_neg (by simp),
          List.filter_eq_self.mpr (by intro a ha; simp [hall a ha])]
        exact perCore_map_coreID _ _ _ _
      · rw [List.filter_cons_of_neg (by simp),
          List.filter_eq_self.mpr (by intro a ha; simp [hall a ha]),
          perCore_map_coreID _ _ _ _]
        exact (List.pairwise_lt_range' 1 _ 1 (by norm_num)).chain'

/-- Witness for C5 at a concrete input with two per-core samples. -/
theorem build_cpu_metrics_invariant_witness :
    ∃ ms, buildCPUMetrics [{ modelName := "Xeon", mhz := 2400 }] [(50 : ℚ), 25] 42
        [default, default, default] 2 4 = some ms ∧
      ((ms.filter fun m => m.isTotal).length = 1) := by
  rcases hms : buildCPUMetrics [{ modelName := "Xeon", mhz := 2400 }] [(50 : ℚ), 25] 42
      [default, default, default] 2 4 with _ | ms
  · exact absurd hms (by simp [buildCPUMetrics])
  · exact ⟨ms, rfl, (build_cpu_metrics_invariant _ _ _ _ _ _ ms hms).1⟩

theorem healthyAfter_no_open : ∀ (evs : List HEvent), HEvent.openOk ∉ evs →
    healthyAfter evs = false
  | [], _ => rfl
  | e :: rest, h => by
    have he : e ≠ HEvent.openOk := fun hh => h (hh ▸ List.mem_cons_self e rest)
    have hr : HEvent.openOk ∉ rest := fun hm => h (List.mem_cons_of_mem _ hm)
    have hstep : healthyStep false e = false := by
      cases e with
      | openOk => exact absurd rfl he
      | openFail => rfl
      | recvOk => rfl
      | recvErr => rfl
    show List.foldl healthyStep (healthyStep false e) rest = false
    rw [hstep]
    exact healthyAfter_no_open rest hr

/-- C6: the healthy flag of the agent starts false and stays false on
any trace without a successful Watch open; it is true immediately after
a successful open; it can only be true if some successful open
happened; and it is false immediately after any Recv error or stream
close. -/
theorem agent_healthy_flag_spec :
    healthyAfter [] = false ∧
    (∀ evs, HEvent.openOk ∉ evs → healthyAfter evs = false) ∧
    (∀ evs, healthyAfter (evs ++ [HEvent.openOk]) = true) ∧
    (∀ evs, healthyAfter evs = true → HEvent.openOk ∈ evs) ∧
    (∀ evs, healthyAfter (evs ++ [HEvent.recvErr]) = false) := by
  refine ⟨rfl, healthyAfter_no_open, ?_, ?_, ?_⟩
  · intro evs
    simp [healthyAfter, List.foldl_append, healthyStep]
  · intro evs h
    by_contra hn
    rw [healthyAfter_no_open evs hn] at h
    cases h
  · intro evs
    simp [healthyAfter, List.foldl_append, healthyStep]

/-- Witness for C6: a trace with a failed open and a Recv error keeps
the flag false. -/
theorem agent_healthy_flag_spec_witness :
    healthyAfter [HEvent.openFail, HEvent.recvErr] = false :=
  agent_healthy_flag_spec.2.1 [HEvent.openFail, HEvent.recvErr] (by decide)

/-- C7 (code bug): watchHealth returns false on every completed call,
including calls whose Watch open succeeded, so the reset branch of
healthCheckLoop is unreachable.  After a session whose open succeeded
and whose stream later closed, followed by a failed open, the loop
sleeps two then four seconds and leaves the delay at eight seconds,
instead of resetting to the two-second base after the successful open
as the specification (and the comments of the source) state. -/
theorem health_backoff_never_reset :
    (∀ s : WatchSession, watchHealthResult s = false) ∧
    healthLoopRun backoffBase [WatchSession.openThenClose 5, WatchSession.openFail] =
      (8, [2, 4]) := by
  constructor
  · intro s
    cases s <;> rfl
  · decide

/-- C8 (code bug): the pre-jitter delay of connectWithRetry multiplies
by BaseDelay twice, so at retryCount one the computed delay is two
quintillion nanoseconds, capped to the sixty-second MaxDelay, while the
specification formula gives two seconds; and at retryCount five the
int64 product overflows to a negative delay that the cap does not
correct. -/
theorem connect_retry_delay_bug :
    connectRetryDelay 1 = 60000000000 ∧
    specConnectRetryDelay 1 = 2000000000 ∧
    connectRetryDelay 1 ≠ specConnectRetryDelay 1 ∧
    connectRetryDelay 5 = -8446744073709551616 := by
  refine ⟨by decide, by decide, by decide, by decide⟩

theorem lookup_mapDelete (id : String) (m : SessionMap) :
    (mapDelete id m).lookup id = none := by
  induction m with
  | nil => rfl
  | cons p rest ih =>
    obtain ⟨k, v⟩ := p
    by_cases h : k = id
    · simpa [mapDelete, List.filter_cons, h] using ih
    · have hb : (id == k) = false := beq_eq_false_iff_ne.mpr (Ne.symm h)
      simpa [mapDelete, List.filter_cons, h, List.lookup, hb] using ih

theorem applyEvents_not_mem :
    ∀ (tr : List SessEvent) (m : SessionMap) (id : String),
      ((eventsOn id tr).getLast? = some false ∨
        (eventsOn id tr = [] ∧ ∀ info, (id, info) ∉ m)) →
      ∀ info, (id, info) ∉ applyEvents m tr := by
  intro tr
  induction tr with
  | nil =>
    intro m id h info
    rcases h with h | ⟨-, h2⟩
    · simp [eventsOn] at h
    · exact h2 info
  | cons e rest ih =>
    intro m id h info
    show (id, info) ∉ applyEvents (applyEvent m e) rest
    cases e with
    | enter i info0 =>
      by_cases hi : i = id
      · subst hi
        have he : eventsOn i (SessEvent.enter i info0 :: rest) = true :: eventsOn i rest := by
          simp [eventsOn]
        rw [he] at h
        rcases h with h | ⟨h1, -⟩
        · cases hl : eventsOn i rest with
          | nil => rw [hl] at h; simp at h
          | cons b l =>
            rw [hl, List.getLast?_cons_cons] at h
            refine ih _ i (Or.inl ?_) info
            rw [hl]
            exact h
        · simp at h1
      · have he : eventsOn id (SessEvent.enter i info0 :: rest) = eventsOn id rest := by
          simp [eventsOn, hi]
        rw [he] at h
        refine ih _ id ?_ info
        rcases h with h | ⟨h1, h2⟩
        · exact Or.inl h
        · refine Or.inr ⟨h1, fun info2 hmem => ?_⟩
          rcases List.mem_cons.mp hmem with heq | hmem2
          · exact hi (congrArg Prod.fst heq).symm
          · exact h2 info2 (List.mem_of_mem_filter hmem2)
    | leave i =>
      by_cases hi : i = id
      · subst hi
        have he : eventsOn i (SessEvent.leave i :: rest) = false :: eventsOn i rest := by
          simp [eventsOn]
        rw [he] at h
        cases hl : eventsOn i rest with
        | nil =>
          refine ih _ i (Or.inr ⟨hl, fun info2 hmem => ?_⟩) info
          have h2 := (List.mem_filter.mp hmem).2
          simp at h2
        | cons b l =>
          rcases h with h | ⟨h1, -⟩
          · rw [hl, List.getLast?_cons_cons] at h
            refine ih _ i (Or.inl ?_) info
            rw [hl]
            exact h
          · simp at h1
      · have he : eventsOn id (SessEvent.leave i :: rest) = eventsOn id rest := by
          simp [eventsOn, hi]
        rw [he] at h
        refine ih _ id ?_ info
        rcases h with h | ⟨h1, h2⟩
        · exact Or.inl h
        · exact Or.inr ⟨h1, fun info2 hmem => h2 info2 (List.mem_of_mem_filter hmem)⟩

/-- C9: every Watch call registers its session on entry (the map right
after registration holds it) and removes it on every exit path, so the
session id is absent from the map Watch leaves behind; on shutdown the
session is sent the initial SERVING and then one best-effort
NOT_SERVING before returning; and after a trace of registrations and
removals in which no session has a registration as its last event — in
particular after graceful shutdown has completed every Watch call —
the session map, which started empty, is empty. -/
theorem health_watch_sessions_spec :
    (∀ (m : SessionMap) (id hn ip : String) (now : Int) (o : WatchOutcome),
      (watch m id hn ip now o).registered.lookup id =
        some { id := id, hostname := hn, ipAddress := ip, connectedAt := now } ∧
      (watch m id hn ip now o).map.lookup id = none) ∧
    (∀ (m : SessionMap) (id hn ip : String) (now : Int) (b : Bool),
      (watch m id hn ip now (WatchOutcome.shutdown b)).sends =
        [ServingStatus.serving, ServingStatus.notServing]) ∧
    (∀ tr : List SessEvent, completedTrace tr → applyEvents [] tr = []) := by
  refine ⟨?_, fun _ _ _ _ _ _ => rfl, ?_⟩
  · intro m id hn ip now o
    constructor
    · cases o <;> simp [watch, mapInsert, List.lookup]
    · cases o <;> exact lookup_mapDelete id _
  · intro tr hc
    rw [List.eq_nil_iff_forall_not_mem]
    intro a
    obtain ⟨id, info⟩ := a
    have hgl := hc id
    rcases hl : (eventsOn id tr).getLast? with - | b
    · exact applyEvents_not_mem tr [] id
        (Or.inr ⟨List.getLast?_eq_none_iff.mp hl, fun info2 => List.not_mem_nil _⟩) info
    · cases b with
      | true => exact absurd hl hgl
      | false => exact applyEvents_not_mem tr [] id (Or.inl hl) info

/-- Witness for C9: a register followed by its unregister leaves the
map empty. -/
theorem health_watch_sessions_spec_witness :
    applyEvents [] [SessEvent.enter "host-a" default, SessEvent.leave "host-a"] = [] := by
  apply health_watch_sessions_spec.2.2
  intro id
  by_cases h : "host-a" = id
  · subst h
    decide
  · simp [eventsOn, List.filterMap_cons, h]

theorem collectBody_inl_of_ne_zero (e : CPUSampleEnv) (s : CPUState)
    (h : s.lastCollectTime ≠ 0) : ∃ r, collectBody e s = Sum.inl r := by
  unfold collectBody
  rcases hse : e.staticErr with - | err
  · rcases htt : e.totalTimes with - | tt
    · exact ⟨_, rfl⟩
    · by_cases hnil : tt = []
      · simp [hnil]
      · simp only [hnil, dite_false, dif_neg]
        rw [if_neg h]
        rcases hb : buildCPUMetrics e.cpuInfo _ _ _ e.physicalCount e.logicalCount with - | ms
        · simp [hb]
        · simp [hb]
  · exact ⟨_, rfl⟩

theorem collectBody_inr_cases (e : CPUSampleEnv) (s s1 : CPUState)
    (h : collectBody e s = Sum.inr s1) :
    s.lastCollectTime = 0 ∧ s1.lastCollectTime = e.now := by
  unfold collectBody at h
  rcases hse : e.staticErr with - | err
  · rw [hse] at h
    rcases htt : e.totalTimes with - | tt
    · rw [htt] at h
      cases h
    · rw [htt] at h
      by_cases hnil : tt = []
      · simp [hnil] at h
      · simp only [hnil, dite_false, dif_neg] at h
        by_cases hz : s.lastCollectTime = 0
        · rw [if_pos hz] at h
          cases h
          exact ⟨hz, rfl⟩
        · rw [if_neg hz] at h
          rcases hb : buildCPUMetrics e.cpuInfo _ _ _ e.physicalCount e.logicalCount with - | ms <;>
            rw [hb] at h <;> cases h
  · rw [hse] at h
    cases h

/-- C10: Collect always terminates: recursion fuel two suffices from
any state provided the clock never reads the zero time, because the
warm-up branch stamps lastCollectTime with the current instant before
the recursive call, so the zero-time test fails on re-entry; and extra
fuel never changes the result. -/
theorem cpu_collect_terminates (env : Nat → CPUSampleEnv) (k : Nat) (s : CPUState)
    (hnow : ∀ j, (env j).now ≠ 0) :
    (collectAux env 2 k s).isSome = true ∧
    ∀ n, collectAux env (2 + n) k s = collectAux env 2 k s := by
  have hsucc : ∀ (fuel k0 : Nat) (s0 : CPUState), collectAux env (fuel + 1) k0 s0 =
      (match collectBody (env k0) s0 with
       | Sum.inl r => some r
       | Sum.inr s1 => collectAux env fuel (k0 + 1) s1) := fun _ _ _ => rfl
  have estep : ∀ (fuel k0 : Nat) (s0 : CPUState) (r : CollectOut × CPUState),
      collectBody (env k0) s0 = Sum.inl r → collectAux env (fuel + 1) k0 s0 = some r := by
    intro fuel k0 s0 r hh
    rw [hsucc, hh]
  have erec : ∀ (fuel k0 : Nat) (s0 s2 : CPUState),
      collectBody (env k0) s0 = Sum.inr s2 →
      collectAux env (fuel + 1) k0 s0 = collectAux env fuel (k0 + 1) s2 := by
    intro fuel k0 s0 s2 hh
    rw [hsucc, hh]
  rcases hb : collectBody (env k) s with r | s1
  · have h2 : collectAux env 2 k s = some r := estep 1 k s r hb
    refine ⟨by rw [h2]; rfl, fun n => ?_⟩
    have h3 : collectAux env (2 + n) k s = some r := by
      rw [show (2 : Nat) + n = (1 + n) + 1 from by omega]
      exact estep (1 + n) k s r hb
    rw [h3, h2]
  · obtain ⟨hz, h1⟩ := collectBody_inr_cases (env k) s s1 hb
    have h1ne : s1.lastCollectTime ≠ 0 := by
      rw [h1]
      exact hnow k
    obtain ⟨r2, hb2⟩ := collectBody_inl_of_ne_zero (env (k + 1)) s1 h1ne
    have e1 : collectAux env 2 k s = collectAux env 1 (k + 1) s1 := erec 1 k s s1 hb
    have e2 : collectAux env 1 (k + 1) s1 = some r2 := estep 0 (k + 1) s1 r2 hb2
    refine ⟨by rw [e1, e2]; rfl, fun n => ?_⟩
    have e3 : collectAux env (2 + n) k s = collectAux env (1 + n) (k + 1) s1 := by
      rw [show (2 : Nat) + n = (1 + n) + 1 from by omega]
      exact erec (1 + n) k s s1 hb
    have e4 : collectAux env (1 + n) (k + 1) s1 = some r2 := by
      rw [show (1 : Nat) + n = n + 1 from by omega]
      exact estep n (k + 1) s1 r2 hb2
    rw [e3, e4, e1, e2]

/-- Witness for C10: from the initial state (zero lastCollectTime) with
a well-behaved environment, fuel two yields a result. -/
theorem cpu_collect_terminates_witness :
    (collectAux
      (fun _ =>
        { staticErr := none, cpuInfo := [default], logicalCount := 8, physicalCount := 4,
          totalTimes := some [default], perCoreTimes := some [default, default],
          now := 1700000000 })
      2 0 default).isSome = true := by
  refine (cpu_collect_terminates _ 0 default fun j => ?_).1
  exact (by norm_num : (1700000000 : Int) ≠ 0)

end G0s
